import Mathlib

/-!
Shallow embedding of `src/finance_app.py` (a Streamlit personal-finance
dashboard) and proofs about its data-processing pipeline.

Modelling conventions:
* monetary amounts (the float columns `Bank`, `Invest`, `Total_Assets`,
  `Change`) are modelled as rationals `ℚ`;
* dates (`pd.Timestamp`) are modelled as integer day numbers (days since
  1970-01-01); `Date = start_date + timedelta(days=Day)` becomes integer
  addition, and `(d2 - d1).days` becomes integer subtraction;
* a missing CSV cell (`NaN`) is `Option.none`; `fillna` is `Option.getD`;
* Python `//` (floor division) is `Int.fdiv` / `Int.floor` on `ℚ`.
-/

set_option maxRecDepth 100000

namespace FinTrack

/-! ### String helpers (Python `in`, `strip`, `split`) -/

/-- `needle` occurs at the head of `hay` (list-of-chars version of
Python's startswith). -/
def startsWithList : List Char → List Char → Bool
  | [], _ => true
  | _ :: _, [] => false
  | a :: as, b :: bs => a == b && startsWithList as bs

/-- Python's substring test `needle in hay`, on explicit char lists. -/
def containsSublist (needle : List Char) : List Char → Bool
  | [] => startsWithList needle []
  | hay@(_ :: rest) => startsWithList needle hay || containsSublist needle rest

/-- Python's substring test `needle in hay` on strings. -/
def strContains (hay needle : String) : Bool :=
  containsSublist needle.toList hay.toList

/-! ### The raw CSV rows and the processed dataframe rows -/

/-- One row of `saving.csv`: columns `Day`, `Bank`, `Invest`, `Notes`
(`Bank`/`Invest`/`Notes` cells may be missing). -/
structure RawRow where
  day : Int
  bank : Option ℚ
  invest : Option ℚ
  notes : Option String
  deriving Repr, DecidableEq

/-- One row of the processed dataframe `df` after the column derivations of
`load_and_process_data` (before the `Tag`/`Stage` columns are added). -/
structure Row where
  date : Int
  bank : ℚ
  invest : ℚ
  total_assets : ℚ
  change : ℚ
  notes : String
  deriving Repr, DecidableEq

/-- The row-by-row loop behind
`df['Date'] = start + Day`, `Bank/Invest = fillna(0)`,
`Total_Assets = Bank + Invest`, `Change = Total_Assets.diff().fillna(0)`,
`Notes = fillna('')`; `prev` carries the previous row's `Total_Assets`
(`none` before the first row, so the first diff is the filled `0`). -/
def processAux (start : Int) : Option ℚ → List RawRow → List Row
  | _, [] => []
  | prev, r :: rs =>
    let bank := r.bank.getD 0
    let invest := r.invest.getD 0
    let total := bank + invest
    let change := match prev with
      | none => 0
      | some p => total - p
    { date := start + r.day, bank := bank, invest := invest,
      total_assets := total, change := change,
      notes := r.notes.getD "" } :: processAux start (some total) rs

/-- `load_and_process_data` (src/finance_app.py lines 160-170): the basic
column derivations over the whole CSV. -/
def load_and_process_data (start : Int) (rows : List RawRow) : List Row :=
  processAux start none rows

/-- The pandas series `Total_Assets` read straight off the raw rows
(`fillna(0)` then sum), used to state claims about the diff column. -/
def totalsOf (rows : List RawRow) : List ℚ :=
  rows.map fun r => r.bank.getD 0 + r.invest.getD 0

/-- `Series.diff().fillna(0)` on a list: the first entry's `NaN` becomes `0`
and entry `i ≥ 1` becomes `l[i] - l[i-1]`. -/
def seriesDiffFill (l : List ℚ) : List ℚ :=
  match l with
  | [] => []
  | _ :: _ => 0 :: List.zipWith (fun a b => a - b) l.tail l

/-! ### `adaptive_tagging` (src/finance_app.py lines 174-197) -/

/-- The candidate category list of `adaptive_tagging`: split the stripped
note on `;`/`；`, take each segment's head before `:`/`：`, strip it, and
drop empty heads and the non-category tokens. -/
def validCats (note : String) : List String :=
  (note.split (fun c => c == ';' || c == '；')).filterMap fun s =>
    let cat := ((s.split (fun c => c == ':' || c == '：')).headD "").trim
    if cat ≠ "" ∧ cat ∉ ["里程碑", "备注", "备忘", "2025", "2026"] then
      some cat
    else
      none

/-- Python's `abs` on a rational. -/
def ratAbs (q : ℚ) : ℚ :=
  if q < 0 then -q else q

/-- The asset-transfer override of `adaptive_tagging`: the note contains one
of the keywords and the change is small in magnitude (`abs(change) < 10`). -/
def transferCond (note : String) (change : ℚ) : Prop :=
  (["理财", "买入", "基金", "转入"].any fun k => strContains note k) = true ∧
    ratAbs change < 10

instance (note : String) (change : ℚ) : Decidable (transferCond note change) := by
  unfold transferCond; infer_instance

/-- `adaptive_tagging(row)` (src/finance_app.py lines 174-195), as a function
of the row's raw `Notes` string and its `Change`. -/
def adaptive_tagging (notesRaw : String) (change : ℚ) : String :=
  let note := notesRaw.trim
  if change = 0 ∧ note = "" then "无变动"
  else
    let cats := validCats note
    if transferCond note change then "资产转移"
    else
      let res_tag := cats.headD "其他"
      let pfx := if change > 0 then "📈 收入:" else "💸 支出:"
      pfx ++ res_tag

/-! ### `assign_stage_dynamic` (src/finance_app.py lines 201-216) -/

/-- A parsed milestone from the sidebar editor: a date and a stage label. -/
structure Milestone where
  date : Int
  label : String
  deriving Repr, DecidableEq

/-- The `for m in milestones: if d >= m['date']: ... else: break` scan of
`assign_stage_dynamic`, with the running `(current_label, stage_start_date)`
accumulator. -/
def stageGo (d : Int) : List Milestone → String × Int → String × Int
  | [], acc => acc
  | m :: ms, acc => if m.date ≤ d then stageGo d ms (m.label, m.date) else acc

/-- The initial `stage_start_date` of `assign_stage_dynamic`:
`milestones[0]['date'] if milestones else d`. -/
def stageInitDate (milestones : List Milestone) (d : Int) : Int :=
  match milestones with
  | [] => d
  | m :: _ => m.date

/-- The `(current_label, stage_start_date)` pair computed by
`assign_stage_dynamic` for date `d`: the scan started from
`("初始阶段", milestones[0]['date'] if milestones else d)`. -/
def stageScan (milestones : List Milestone) (d : Int) : String × Int :=
  stageGo d milestones ("初始阶段", stageInitDate milestones d)

/-- `years_passed + 1` of `assign_stage_dynamic`:
`(d - stage_start_date).days // 365 + 1` (Python `//` is floor division). -/
def stageYearNum (milestones : List Milestone) (d : Int) : Int :=
  (d - (stageScan milestones d).2).fdiv 365 + 1

/-- `assign_stage_dynamic(d)` (src/finance_app.py lines 201-214). -/
def assign_stage_dynamic (milestones : List Milestone) (d : Int) : String :=
  (stageScan milestones d).1 ++ " (第" ++ toString (stageYearNum milestones d) ++ "年)"

/-! ### `calculate_milestone_velocity` (src/finance_app.py lines 235-261) -/

/-- The part of a dataframe row that `calculate_milestone_velocity` reads. -/
structure VRow where
  date : Int
  total : ℚ
  deriving Repr, DecidableEq

/-- One row appended to the `milestones` result list of
`calculate_milestone_velocity`: the masked-or-`"{n}w"` label, `所用天数`,
and the crossing date (`达成日期`, kept as a day number; `strftime` is
output formatting). -/
structure VMilestone where
  label : String
  daysTaken : Int
  reachDate : Int
  deriving Repr, DecidableEq

/-- `df['Total_Assets'].min()` (0 on an empty frame, where pandas would
give `NaN`; the callers only use non-empty frames). -/
def minTotal (rows : List VRow) : ℚ :=
  match rows with
  | [] => 0
  | r :: rs => rs.foldl (fun a x => min a x.total) r.total

/-- `df['Total_Assets'].max()` (0 on an empty frame, as for `minTotal`). -/
def maxTotal (rows : List VRow) : ℚ :=
  match rows with
  | [] => 0
  | r :: rs => rs.foldl (fun a x => max a x.total) r.total

/-- `df.sort_values('Date')`, modelled as a sort of the rows by date. -/
def sortByDate (rows : List VRow) : List VRow :=
  List.insertionSort (fun a b => a.date ≤ b.date) rows

/-- Python `int(x)` on a rational: truncation toward zero. -/
def ratTruncInt (q : ℚ) : Int :=
  if q < 0 then ⌈q⌉ else ⌊q⌋

/-- The `while current_target <= df['Total_Assets'].max():` loop of
`calculate_milestone_velocity`, indexed by explicit fuel so that the
loop's termination (claim C9) is itself a provable statement: `none`
means the fuel ran out before the loop finished.  Each iteration finds
the first date-ordered row with `Total_Assets >= current_target`
(`head(1)` of the boolean filter), records the clamped day count and the
label (`"****"` under privacy mode, else `f"{int(current_target/10000)}w"`),
and retries with `current_target + step`; an empty filter is the `break`. -/
def velLoop (privacy : Bool) (sorted : List VRow) (maxT step : ℚ) :
    Nat → ℚ → Int → Option (List VMilestone)
  | fuel, target, lastDate =>
    if target ≤ maxT then
      match sorted.find? (fun r => decide (target ≤ r.total)) with
      | some r =>
        match fuel with
        | 0 => none
        | f + 1 =>
          let days0 := r.date - lastDate
          let days := if days0 < 1 then 1 else days0
          let lbl := if privacy then "****"
                     else toString (ratTruncInt (target / 10000)) ++ "w"
          (velLoop privacy sorted maxT step f (target + step) r.date).map
            (fun rest =>
              { label := lbl, daysTaken := days, reachDate := r.date } :: rest)
      | none => some []
    else some []

/-- The first threshold of `calculate_milestone_velocity`:
`current_target = (start_val // step + 1) * step` with `start_val` the
minimum of `Total_Assets` (Python `//` on floats is `math.floor(a/b)`). -/
def firstTarget (rows : List VRow) (step : ℚ) : ℚ :=
  (⌊minTotal rows / step⌋ + 1) * step

/-- Fuel that (for `step > 0`) is enough for `velLoop` to finish: one unit
per threshold still `≤ maxT`, plus one. -/
def velFuel (rows : List VRow) (step : ℚ) : Nat :=
  (⌊(maxTotal rows - firstTarget rows step) / step⌋).toNat + 1

/-- `df['Date'].iloc[0]`: the *unsorted* frame's first date (0 on an empty
frame, where pandas would raise). -/
def headDate (df : List VRow) : Int :=
  match df with
  | [] => 0
  | r :: _ => r.date

/-- `calculate_milestone_velocity(df, step)` (src/finance_app.py lines
235-261), with the module-level `privacy_mode` made an explicit argument.
`last_date` starts at `df['Date'].iloc[0]` (the *unsorted* frame's first
row).  The loop is run with provably sufficient fuel (for `step ≤ 0` the
Python loop may not terminate; there the model returns `[]`, and claim C9
proves the non-termination). -/
def calculate_milestone_velocity (privacy : Bool) (df : List VRow) (step : ℚ) :
    List VMilestone :=
  match df with
  | [] => []
  | _ :: _ =>
    (velLoop privacy (sortByDate df) (maxTotal df) step
      (velFuel df step) (firstTarget df step) (headDate df)).getD []

/-! ### The month-end resample / diff / pivot
(src/finance_app.py lines 218-226) -/

/-- Civil-calendar `(year, month, day)` of an integer day number (days since
1970-01-01), by the standard days-from-civil inversion; this is what
pandas' `DatetimeIndex.year/.month` reads off a timestamp. -/
def civilFromDays (z0 : Int) : Int × Int × Int :=
  let z := z0 + 719468
  let era := z.fdiv 146097
  let doe := z - era * 146097
  let yoe := (doe - doe.fdiv 1460 + doe.fdiv 36524 - doe.fdiv 146096).fdiv 365
  let y := yoe + era * 400
  let doy := doe - (365 * yoe + yoe.fdiv 4 - yoe.fdiv 100)
  let mp := (5 * doy + 2).fdiv 153
  let d := doy - (153 * mp + 2).fdiv 5 + 1
  let m := mp + (if mp < 10 then 3 else -9)
  (y + (if m ≤ 2 then 1 else 0), m, d)

/-- The linear month index `year*12 + (month-1)` of a day number; two dates
fall in the same resampling bucket of `resample('M')` iff they share it. -/
def monthIdx (d : Int) : Int :=
  let c := civilFromDays d
  c.1 * 12 + (c.2.1 - 1)

/-- Year of a linear month index (`season_df['Year'] = index.year`). -/
def yearOfIdx (mi : Int) : Int := mi.fdiv 12

/-- Month of a linear month index (`season_df['Month'] = index.month`). -/
def monthOfIdx (mi : Int) : Int := mi.fmod 12 + 1

/-- `df['Date'].min()` / the first index entry used by `resample` (0 on an
empty frame; the caller only resamples non-empty frames). -/
def minDate (rows : List Row) : Int :=
  match rows with
  | [] => 0
  | r :: rs => rs.foldl (fun a x => min a x.date) r.date

/-- `df['Date'].max()` (0 on an empty frame, as for `minDate`). -/
def maxDate (rows : List Row) : Int :=
  match rows with
  | [] => 0
  | r :: rs => rs.foldl (fun a x => max a x.date) r.date

/-- The complete run of month buckets generated by `resample('M')`: every
calendar month from the month of the earliest date to the month of the
latest date, as linear month indices. -/
def monthRange (rows : List Row) : List Int :=
  match rows with
  | [] => []
  | _ =>
    let lo := monthIdx (minDate rows)
    let hi := monthIdx (maxDate rows)
    (List.range ((hi - lo).toNat + 1)).map fun (k : ℕ) => lo + (k : Int)

/-- `.last()` of one resampling bucket: the last `Total_Assets` observation
falling in month `mi`, `none` (pandas `NaN`) if the month has no rows. -/
def monthLast (rows : List Row) (mi : Int) : Option ℚ :=
  ((rows.filter fun r => monthIdx r.date = mi).getLast?).map (·.total_assets)

/-- `df.set_index('Date')['Total_Assets'].resample('M').last()`: one entry
per month bucket in range, `none` for empty months. -/
def monthlySeries (rows : List Row) : List (Int × Option ℚ) :=
  (monthRange rows).map fun mi => (mi, monthLast rows mi)

/-- `.diff().fillna(0)` on a series with missing entries: the first entry
and every diff touching a `NaN` become `0`. -/
def diffFillOpt (l : List (Option ℚ)) : List ℚ :=
  match l with
  | [] => []
  | _ :: _ =>
    0 :: List.zipWith
      (fun b a => match b, a with
        | some b, some a => b - a
        | _, _ => 0)
      l.tail l

/-- `monthly_diff` (src/finance_app.py line 220), keyed by month index. -/
def monthly_diff (rows : List Row) : List (Int × ℚ) :=
  (monthRange rows).zip (diffFillOpt ((monthlySeries rows).map (·.2)))

/-- `season_pivot` (src/finance_app.py lines 223-226): the cell at
`(Year, Month)` of the pivot of `monthly_diff`, `none` where the pivot
table has no such row/column pair. -/
def season_pivot (rows : List Row) (y m : Int) : Option ℚ :=
  ((monthly_diff rows).find? fun p =>
    decide (yearOfIdx p.1 = y) && decide (monthOfIdx p.1 = m)).map (·.2)

/-! ### `fmt_money` and `mask_fig` (src/finance_app.py lines 121-156) -/

/-- The value a `fmt_money` call hands to Streamlit: the privacy mask, the
raw number (non-KPI branch), or the KPI string. -/
inductive MoneyDisplay where
  | masked : MoneyDisplay
  | plain : ℚ → MoneyDisplay
  | kpiStr : String → MoneyDisplay
  deriving Repr, DecidableEq

/-- Python's round-half-to-even on a rational, the rounding of `format(v, '.0f')`. -/
def roundHalfEven (q : ℚ) : Int :=
  let f := ⌊q⌋
  let r := q - (f : ℚ)
  if r < 1 / 2 then f
  else if 1 / 2 < r then f + 1
  else if f % 2 = 0 then f else f + 1

/-- Split a reversed digit list into groups of three (for the `,` of
`format(v, ',.0f')`), least-significant group first. -/
def chunk3 : List Char → List (List Char)
  | [] => []
  | a :: b :: c :: rest@(_ :: _) => [a, b, c] :: chunk3 rest
  | l => [l]

/-- Insert thousands separators into a digit string. -/
def commaGroup (s : String) : String :=
  String.intercalate "," (((chunk3 s.toList.reverse).map
    (fun g => String.mk g.reverse)).reverse)

/-- `f"¥{val:,.0f}"`: round half-to-even to an integer, group the digits. -/
def fmtKpiStr (v : ℚ) : String :=
  let n := roundHalfEven v
  "¥" ++ (if n < 0 then "-" else "") ++ commaGroup (toString n.natAbs)

/-- `fmt_money(val, is_kpi)` (src/finance_app.py lines 121-127), with the
module-level `privacy_mode` made an explicit argument. -/
def fmt_money (privacy : Bool) (val : ℚ) (is_kpi : Bool) : MoneyDisplay :=
  if privacy then .masked
  else if is_kpi then .kpiStr (fmtKpiStr val)
  else .plain val

/-- One plotly axis as far as `mask_fig` touches it. -/
structure Axis where
  showticklabels : Bool
  title_text : String
  deriving Repr, DecidableEq

/-- The figure state `mask_fig` reads and writes: the two axes and the
trace templates (`update_traces` sets them on every trace alike). -/
structure Fig where
  xaxis : Axis
  yaxis : Axis
  hovertemplate : String
  texttemplate : String
  deriving Repr, DecidableEq

/-- The privacy-masking body of `mask_fig(fig, axis)` (src/finance_app.py
lines 129-142): hide the money axis's tick labels and title, mask the
hover template, and blank the text template.  The function's trailing
`fig.update_layout(...)` call (lines 145-155) is syntactically unclosed
in the source — see `maskFigTailSrc` and claim C1 — so only the
well-formed masking statements are embedded. -/
def mask_fig (privacy : Bool) (fig : Fig) (axis : String) : Fig :=
  if privacy then
    let fig :=
      if axis = "y" then
        { fig with yaxis := { showticklabels := false, title_text := "****" } }
      else if axis = "x" then
        { fig with xaxis := { showticklabels := false, title_text := "****" } }
      else fig
    { fig with hovertemplate := "%\x7bx\x7d<br>****", texttemplate := "" }
  else fig

/-! ### The source text of `mask_fig`'s tail (claim C1) -/

/-- The verbatim tail of `mask_fig` (src/finance_app.py lines 144-156):
the `update_layout` call whose parentheses are never closed before
`return fig`. -/
def maskFigTailSrc : String :=
  "    # === 🆕 新增：移动端图表布局优化 ===\n" ++
  "    fig.update_layout(\n" ++
  "        # 1. 减少图表四周的留白\n" ++
  "        margin=dict(l=10, r=10, t=30, b=10),\n" ++
  "        # 2. 图例放到顶部水平排列，不占用绘图区\n" ++
  "        legend=dict(\n" ++
  "            orientation=\"h\",\n" ++
  "            yanchor=\"bottom\",\n" ++
  "            y=1.02,\n" ++
  "            xanchor=\"right\",\n" ++
  "            x=1\n" ++
  "        \n" ++
  "    return fig\n"

/-- Net count of `(` minus `)` over a char list, starting from `acc`. -/
def parenBalanceAux (acc : Int) : List Char → Int
  | [] => acc
  | c :: cs =>
    parenBalanceAux (if c == '(' then acc + 1 else if c == ')' then acc - 1 else acc) cs

/-- Net open-parenthesis count of a source snippet.  (The snippet of
interest contains no parentheses inside string literals or comments, so
the plain count is the parser's.)  A snippet whose every `(` is closed
has balance `0`. -/
def parenBalance (s : String) : Int :=
  parenBalanceAux 0 s.toList

/-! ### The whole data-processing pipeline bundled (claim C8) -/

/-- The row built for one CSV row given its already-diffed `Change`. -/
def mkRow (start : Int) (r : RawRow) (c : ℚ) : Row :=
  { date := start + r.day, bank := r.bank.getD 0, invest := r.invest.getD 0,
    total_assets := r.bank.getD 0 + r.invest.getD 0, change := c,
    notes := r.notes.getD "" }

/-- The projection of a processed row that `calculate_milestone_velocity`
reads. -/
def toVRow (r : Row) : VRow :=
  { date := r.date, total := r.total_assets }

/-- Everything the dashboard's data-processing stages compute from a CSV:
the processed rows, the `Tag` column, the `Stage` column, the monthly net
changes and the milestone-velocity table. -/
def fullPipeline (start : Int) (ms : List Milestone) (privacy : Bool)
    (step : ℚ) (raw : List RawRow) :
    List Row × List String × List String × List (Int × ℚ) × List VMilestone :=
  let df := load_and_process_data start raw
  (df,
   df.map fun r => adaptive_tagging r.notes r.change,
   df.map fun r => assign_stage_dynamic ms r.date,
   monthly_diff df,
   calculate_milestone_velocity privacy (df.map toVRow) step)

/-- Modelled from the spec: the loading stage of the second dashboard copy.
The second and third copies of the script are not under `src/`; per the
spec they are near-duplicates of `src/finance_app.py` "differing only in
minor layout/UI tweaks", so their data processing performs the same
column derivations — here written in the spec's columnar form
("Total_Assets = Bank + Invest; Change = diff of Total_Assets") rather
than the row-by-row recursion of `processAux`. -/
def copyB_load (start : Int) (raw : List RawRow) : List Row :=
  List.zipWith (mkRow start) raw (seriesDiffFill (totalsOf raw))

/-- Modelled from the spec: the data-processing pipeline of the second
dashboard copy (sidebar-variant UI); same stages over `copyB_load`. -/
def copyB_fullPipeline (start : Int) (ms : List Milestone) (privacy : Bool)
    (step : ℚ) (raw : List RawRow) :
    List Row × List String × List String × List (Int × ℚ) × List VMilestone :=
  let df := copyB_load start raw
  (df,
   df.map fun r => adaptive_tagging r.notes r.change,
   df.map fun r => assign_stage_dynamic ms r.date,
   monthly_diff df,
   calculate_milestone_velocity privacy (df.map toVRow) step)

/-- Modelled from the spec: the data-processing pipeline of the third
dashboard copy (tabbed-settings UI).  Per the spec it repeats the same
transforms; only its chart/widget layout differs. -/
def copyC_fullPipeline (start : Int) (ms : List Milestone) (privacy : Bool)
    (step : ℚ) (raw : List RawRow) :
    List Row × List String × List String × List (Int × ℚ) × List VMilestone :=
  let df := processAux start none raw
  (df,
   df.map fun r => adaptive_tagging r.notes r.change,
   df.map fun r => assign_stage_dynamic ms r.date,
   monthly_diff df,
   calculate_milestone_velocity privacy (df.map toVRow) step)

/-! ## Lemmas about the loading stage -/

lemma processAux_length (start : Int) :
    ∀ (rows : List RawRow) (prev : Option ℚ),
      (processAux start prev rows).length = rows.length := by
  intro rows
  induction rows with
  | nil => intro prev; rfl
  | cons r rs ih => intro prev; simp [processAux, ih]

lemma processAux_map_date (start : Int) :
    ∀ (rows : List RawRow) (prev : Option ℚ),
      (processAux start prev rows).map Row.date =
        rows.map fun r => start + r.day := by
  intro rows
  induction rows with
  | nil => intro prev; rfl
  | cons r rs ih => intro prev; simp [processAux, ih]

lemma processAux_map_total (start : Int) :
    ∀ (rows : List RawRow) (prev : Option ℚ),
      (processAux start prev rows).map Row.total_assets = totalsOf rows := by
  intro rows
  induction rows with
  | nil => intro prev; rfl
  | cons r rs ih => intro prev; simp [processAux, totalsOf, ih]

lemma processAux_map_change_some (start : Int) :
    ∀ (rows : List RawRow) (p : ℚ),
      (processAux start (some p) rows).map Row.change =
        List.zipWith (fun a b => a - b) (totalsOf rows) (p :: totalsOf rows) := by
  intro rows
  induction rows with
  | nil => intro p; rfl
  | cons r rs ih =>
    intro p
    simp only [processAux, totalsOf, List.map_cons, List.zipWith_cons_cons]
    exact congrArg _ (ih _)

lemma load_map_change (start : Int) (rows : List RawRow) :
    (load_and_process_data start rows).map Row.change =
      seriesDiffFill (totalsOf rows) := by
  cases rows with
  | nil => rfl
  | cons r rs =>
    simp only [load_and_process_data, processAux, seriesDiffFill, totalsOf,
      List.map_cons, List.tail_cons]
    exact congrArg _ (processAux_map_change_some start rs _)

lemma processAux_head_change (start : Int) (rs : List RawRow) (p : ℚ)
    (h : 0 < (processAux start (some p) rs).length) :
    ((processAux start (some p) rs).get ⟨0, h⟩).change =
      ((processAux start (some p) rs).get ⟨0, h⟩).total_assets - p := by
  cases rs with
  | nil => simp [processAux] at h
  | cons r rs' => simp [processAux]

lemma processAux_change_succ (start : Int) :
    ∀ (rows : List RawRow) (prev : Option ℚ) (i : ℕ)
      (h : i + 1 < (processAux start prev rows).length),
      ((processAux start prev rows).get ⟨i + 1, h⟩).change =
        ((processAux start prev rows).get ⟨i + 1, h⟩).total_assets -
        ((processAux start prev rows).get ⟨i, Nat.lt_of_succ_lt h⟩).total_assets := by
  intro rows
  induction rows with
  | nil => intro prev i h; simp [processAux] at h
  | cons r rs ih =>
    intro prev i h
    cases i with
    | zero =>
      simp only [processAux] at h ⊢
      simp only [List.get_eq_getElem, List.getElem_cons_succ,
        List.getElem_cons_zero]
      have h0 : 0 < (processAux start (some (r.bank.getD 0 + r.invest.getD 0)) rs).length := by
        simpa using Nat.lt_of_succ_lt_succ h
      simpa [List.get_eq_getElem] using
        processAux_head_change start rs (r.bank.getD 0 + r.invest.getD 0) h0
    | succ k =>
      simp only [processAux] at h ⊢
      simp only [List.get_eq_getElem, List.getElem_cons_succ]
      simpa [List.get_eq_getElem] using
        ih (some (r.bank.getD 0 + r.invest.getD 0)) k
          (by simpa using Nat.lt_of_succ_lt_succ h)

lemma seriesDiffFill_get_succ (l : List ℚ) (i : ℕ)
    (h : i + 1 < (seriesDiffFill l).length) (h2 : i + 1 < l.length) :
    (seriesDiffFill l).get ⟨i + 1, h⟩ =
      l.get ⟨i + 1, h2⟩ - l.get ⟨i, Nat.lt_of_succ_lt h2⟩ := by
  cases l with
  | nil => simp at h2
  | cons a t =>
    simp only [seriesDiffFill, List.tail_cons] at h ⊢
    have ht : i < t.length := by
      have := h
      simp [List.length_zipWith] at this
      omega
    simp [List.get_eq_getElem, List.getElem_cons_succ, List.getElem_zipWith]

/-! ## C1 -/

/-- C1.  The spec's implicit claim is that the source parses; in fact the
`fig.update_layout(` and `legend=dict(` of `mask_fig` are never closed:
the verbatim tail of the function (lines 144-156 of `finance_app.py`)
has two more `(` than `)`, so it is not a balanced snippet and CPython
rejects the module with `SyntaxError` before anything can run. -/
theorem C1_mask_fig_tail_unbalanced :
    parenBalance maskFigTailSrc = 2 ∧ parenBalance maskFigTailSrc ≠ 0 := by
  constructor
  · with_unfolding_all rfl
  · intro h
    have h2 : parenBalance maskFigTailSrc = 2 := by with_unfolding_all rfl
    rw [h2] at h
    exact absurd h (by decide)

/-! ## C2 -/

/-- C2.  `load_and_process_data` computes, row by row:
`Date[i] = start_date + Day[i]`, `Total_Assets[i] = Bank[i] + Invest[i]`
with missing cells as `0`, and `Change[i]` the first difference of
`Total_Assets` with the first row's null filled to `0`. -/
theorem C2_load_and_process_data_columns (start : Int) (rows : List RawRow) :
    ((load_and_process_data start rows).map Row.date =
      rows.map fun r => start + r.day) ∧
    ((load_and_process_data start rows).map Row.total_assets =
      rows.map fun r => r.bank.getD 0 + r.invest.getD 0) ∧
    ((load_and_process_data start rows).map Row.change =
      seriesDiffFill (totalsOf rows)) ∧
    (∀ h : 0 < (load_and_process_data start rows).length,
      ((load_and_process_data start rows).get ⟨0, h⟩).change = 0) ∧
    (∀ i (h : i + 1 < (load_and_process_data start rows).length),
      ((load_and_process_data start rows).get ⟨i + 1, h⟩).change =
        ((load_and_process_data start rows).get ⟨i + 1, h⟩).total_assets -
        ((load_and_process_data start rows).get
          ⟨i, Nat.lt_of_succ_lt h⟩).total_assets) := by
  refine ⟨processAux_map_date start rows none,
    processAux_map_total start rows none,
    load_map_change start rows, ?_, ?_⟩
  · intro h
    cases rows with
    | nil => simp [load_and_process_data, processAux] at h
    | cons r rs => simp [load_and_process_data, processAux]
  · intro i h
    exact processAux_change_succ start rows none i h

/-- Witness for C2 at a concrete two-row CSV. -/
theorem C2_witness :
    ((load_and_process_data 100 [⟨0, some 1, some 2, none⟩, ⟨3, none, some 5, none⟩]).get
      ⟨1, by with_unfolding_all decide⟩).change =
      ((load_and_process_data 100 [⟨0, some 1, some 2, none⟩, ⟨3, none, some 5, none⟩]).get
        ⟨1, by with_unfolding_all decide⟩).total_assets -
      ((load_and_process_data 100 [⟨0, some 1, some 2, none⟩, ⟨3, none, some 5, none⟩]).get
        ⟨0, by with_unfolding_all decide⟩).total_assets := by
  have h := (C2_load_and_process_data_columns 100
    [⟨0, some 1, some 2, none⟩, ⟨3, none, some 5, none⟩]).2.2.2.2 0
    (by with_unfolding_all decide)
  exact h

/-! ## C4 -/

/-- The four-way case analysis of `adaptive_tagging`, shared by the C4 and
C10 theorems. -/
lemma adaptive_tagging_cases (notesRaw : String) (change : ℚ) :
    (change = 0 ∧ notesRaw.trim = "" →
      adaptive_tagging notesRaw change = "无变动") ∧
    (¬(change = 0 ∧ notesRaw.trim = "") →
      transferCond notesRaw.trim change →
      adaptive_tagging notesRaw change = "资产转移") ∧
    (¬(change = 0 ∧ notesRaw.trim = "") →
      ¬transferCond notesRaw.trim change → change > 0 →
      adaptive_tagging notesRaw change =
        "📈 收入:" ++ (validCats notesRaw.trim).headD "其他") ∧
    (¬(change = 0 ∧ notesRaw.trim = "") →
      ¬transferCond notesRaw.trim change → ¬(change > 0) →
      adaptive_tagging notesRaw change =
        "💸 支出:" ++ (validCats notesRaw.trim).headD "其他") := by
  refine ⟨fun h1 => ?_, fun h1 h2 => ?_, fun h1 h2 h3 => ?_, fun h1 h2 h3 => ?_⟩ <;>
    simp only [adaptive_tagging]
  · rw [if_pos h1]
  · rw [if_neg h1, if_pos h2]
  · rw [if_neg h1, if_neg h2, if_pos h3]
  · rw [if_neg h1, if_neg h2, if_neg h3]

/-- C4.  `adaptive_tagging` classifies each row as the claim describes
(see `adaptive_tagging_cases`): `'无变动'` for a zero change with an empty
stripped note; otherwise `'资产转移'` when the note holds one of the
keywords `理财/买入/基金/转入` and `|Change| < 10`; otherwise the first
surviving candidate (or `'其他'`) prefixed `'📈 收入:'` for a positive
change and `'💸 支出:'` otherwise. -/
theorem C4_adaptive_tagging_rules (notesRaw : String) (change : ℚ) :
    (change = 0 ∧ notesRaw.trim = "" →
      adaptive_tagging notesRaw change = "无变动") ∧
    (¬(change = 0 ∧ notesRaw.trim = "") →
      transferCond notesRaw.trim change →
      adaptive_tagging notesRaw change = "资产转移") ∧
    (¬(change = 0 ∧ notesRaw.trim = "") →
      ¬transferCond notesRaw.trim change → change > 0 →
      adaptive_tagging notesRaw change =
        "📈 收入:" ++ (validCats notesRaw.trim).headD "其他") ∧
    (¬(change = 0 ∧ notesRaw.trim = "") →
      ¬transferCond notesRaw.trim change → ¬(change > 0) →
      adaptive_tagging notesRaw change =
        "💸 支出:" ++ (validCats notesRaw.trim).headD "其他") :=
  adaptive_tagging_cases notesRaw change

/-- Witness for C4: a keyword note with a small change is an asset
transfer. -/
theorem C4_witness : adaptive_tagging "买入基金" 5 = "资产转移" :=
  (C4_adaptive_tagging_rules "买入基金" 5).2.1
    (by with_unfolding_all decide)
    (by constructor <;> with_unfolding_all decide)

/-! ## C10 -/

/-- C10.  Every `Tag` value is `'无变动'`, `'资产转移'`, or starts with
one of the two prefixes; and a zero-change row with a non-empty note that
does not trigger the transfer rule still gets the expenditure prefix
`'💸 支出:'`. -/
theorem C10_tag_invariant (notesRaw : String) (change : ℚ) :
    (adaptive_tagging notesRaw change = "无变动" ∨
     adaptive_tagging notesRaw change = "资产转移" ∨
     (∃ s, adaptive_tagging notesRaw change = "📈 收入:" ++ s) ∨
     (∃ s, adaptive_tagging notesRaw change = "💸 支出:" ++ s)) ∧
    (change = 0 → notesRaw.trim ≠ "" → ¬transferCond notesRaw.trim change →
      ∃ s, adaptive_tagging notesRaw change = "💸 支出:" ++ s) := by
  have h4 := adaptive_tagging_cases notesRaw change
  constructor
  · by_cases h1 : change = 0 ∧ notesRaw.trim = ""
    · exact Or.inl (h4.1 h1)
    · by_cases h2 : transferCond notesRaw.trim change
      · exact Or.inr (Or.inl (h4.2.1 h1 h2))
      · by_cases h3 : change > 0
        · exact Or.inr (Or.inr (Or.inl ⟨_, h4.2.2.1 h1 h2 h3⟩))
        · exact Or.inr (Or.inr (Or.inr ⟨_, h4.2.2.2 h1 h2 h3⟩))
  · intro hc hn ht
    have h1 : ¬(change = 0 ∧ notesRaw.trim = "") := fun h => hn h.2
    have h3 : ¬(change > 0) := by rw [hc]; exact lt_irrefl 0
    exact ⟨_, h4.2.2.2 h1 ht h3⟩

/-- Witness for C10: a zero change with the non-empty note `"餐饮:米"`
gets the expenditure prefix. -/
theorem C10_witness :
    ∃ s, adaptive_tagging "餐饮:米" 0 = "💸 支出:" ++ s :=
  (C10_tag_invariant "餐饮:米" 0).2 rfl
    (by with_unfolding_all decide)
    (by intro h; exact absurd h.1 (by with_unfolding_all decide))

/-! ## C5 -/

lemma stageGo_eq (d : Int) :
    ∀ (ms : List Milestone) (acc : String × Int),
      ms.Pairwise (fun a b => a.date ≤ b.date) →
      stageGo d ms acc =
        match (ms.filter fun m => decide (m.date ≤ d)).getLast? with
        | some x => (x.label, x.date)
        | none => acc := by
  intro ms
  induction ms with
  | nil => intro acc _; rfl
  | cons m ms ih =>
    intro acc hp
    rw [List.pairwise_cons] at hp
    by_cases hm : m.date ≤ d
    · rw [List.filter_cons_of_pos (by simpa using hm), List.getLast?_cons]
      simp only [stageGo, if_pos hm]
      rw [ih _ hp.2]
      cases hfl : (ms.filter fun m => decide (m.date ≤ d)).getLast? with
      | none => simp
      | some x => simp
    · have hfil : (m :: ms).filter (fun m => decide (m.date ≤ d)) = [] := by
        rw [List.filter_eq_nil_iff]
        intro a ha
        rcases List.mem_cons.mp ha with rfl | ha'
        · simpa using hm
        · simpa using fun hle => hm (le_trans (hp.1 a ha') hle)
      simp only [stageGo, if_neg hm, hfil, List.getLast?_nil]

/-- C5 counterexample.  With the single milestone `(date 10, 公司A)` and a
row dated `5` (before the milestone), `assign_stage_dynamic` starts the
"初始阶段" at the *future* first-milestone date, so the elapsed-years count
is `(5 - 10) // 365 + 1 = 0`: the claimed `N ≥ 1` fails. -/
theorem C5_counterexample :
    assign_stage_dynamic [⟨10, "公司A"⟩] 5 = "初始阶段 (第0年)" ∧
    stageYearNum [⟨10, "公司A"⟩] 5 = 0 ∧
    ¬(1 ≤ stageYearNum [⟨10, "公司A"⟩] 5) := by
  refine ⟨by with_unfolding_all rfl, by with_unfolding_all rfl, fun h => ?_⟩
  rw [show stageYearNum [⟨10, "公司A"⟩] 5 = 0 from by with_unfolding_all rfl] at h
  exact absurd h (by decide)

/-- C5 amended.  For a date-sorted milestone list the stage label is that
of the latest milestone whose date is `≤ d` (`初始阶段` if none), and
`N = (d - s) // 365 + 1` where `s` is that milestone's date — except that
when no milestone is `≤ d` and the list is non-empty, the code uses the
*first* milestone's (future) date as `s`, so `N ≥ 1` is only guaranteed
when some milestone date is `≤ d` or the list is empty. -/
theorem C5_stage_amended (ms : List Milestone) (d : Int)
    (hs : ms.Pairwise fun a b => a.date ≤ b.date) :
    (stageScan ms d =
      match (ms.filter fun m => decide (m.date ≤ d)).getLast? with
      | some x => (x.label, x.date)
      | none => ("初始阶段", stageInitDate ms d)) ∧
    (stageYearNum ms d = (d - (stageScan ms d).2).fdiv 365 + 1) ∧
    ((ms = [] ∨ ∃ m ∈ ms, m.date ≤ d) → 1 ≤ stageYearNum ms d) ∧
    (assign_stage_dynamic ms d =
      (stageScan ms d).1 ++ " (第" ++ toString (stageYearNum ms d) ++ "年)") := by
  have hscan := stageGo_eq d ms ("初始阶段", stageInitDate ms d) hs
  refine ⟨hscan, rfl, ?_, rfl⟩
  rintro (rfl | ⟨m, hmem, hle⟩)
  · simp [stageYearNum, stageScan, stageGo, stageInitDate]
  · have hne : ms.filter (fun m => decide (m.date ≤ d)) ≠ [] := by
      intro hnil
      rw [List.filter_eq_nil_iff] at hnil
      exact hnil m hmem (by simpa using hle)
    obtain ⟨x, hx⟩ := Option.isSome_iff_exists.mp
      (List.getLast?_isSome.mpr hne)
    have hxmem : x ∈ ms.filter (fun m => decide (m.date ≤ d)) :=
      List.mem_of_mem_getLast? (by rw [hx]; rfl)
    have hxle : x.date ≤ d := by
      have := (List.mem_filter.mp hxmem).2
      simpa using this
    have hsnd : (stageScan ms d).2 = x.date := by
      rw [show stageScan ms d =
        stageGo d ms ("初始阶段", stageInitDate ms d) from rfl, hscan, hx]
    unfold stageYearNum
    rw [hsnd]
    have : (0 : Int) ≤ (d - x.date).fdiv 365 :=
      Int.fdiv_nonneg (by omega) (by decide)
    omega

/-- Witness for C5 amended: a row dated after its milestone gets `N ≥ 1`. -/
theorem C5_witness : 1 ≤ stageYearNum [⟨10, "公司A"⟩] 400 :=
  (C5_stage_amended [⟨10, "公司A"⟩] 400 (by simp)).2.2.1
    (Or.inr ⟨⟨10, "公司A"⟩, by simp, by decide⟩)

/-! ## Lemmas about the velocity loop (C3, C9) -/

/-- Iterations the loop still has to run from threshold `target`. -/
def velMeasure (maxT step target : ℚ) : ℕ :=
  if target ≤ maxT then (⌊(maxT - target) / step⌋).toNat + 1 else 0

lemma int_if_lt_one_eq_max (x : Int) : (if x < 1 then 1 else x) = max 1 x := by
  rcases lt_or_le x 1 with h | h
  · rw [if_pos h, max_eq_left (by omega)]
  · rw [if_neg (by omega), max_eq_right h]

lemma velMeasure_succ {maxT step target : ℚ} (hstep : 0 < step)
    (ht : target ≤ maxT) :
    velMeasure maxT step (target + step) + 1 ≤ velMeasure maxT step target := by
  unfold velMeasure
  rw [if_pos ht]
  by_cases ht2 : target + step ≤ maxT
  · rw [if_pos ht2]
    have h1 : (maxT - (target + step)) / step = (maxT - target) / step - 1 := by
      field_simp
      ring
    have h2 : ⌊(maxT - (target + step)) / step⌋ = ⌊(maxT - target) / step⌋ - 1 := by
      rw [h1, Int.floor_sub_one]
    have h3 : (0 : ℤ) ≤ ⌊(maxT - (target + step)) / step⌋ :=
      Int.floor_nonneg.mpr (div_nonneg (by linarith) hstep.le)
    omega
  · rw [if_neg ht2]
    omega

lemma velLoop_isSome (p : Bool) (sorted : List VRow) (maxT step : ℚ)
    (hstep : 0 < step) :
    ∀ (fuel : ℕ) (target : ℚ) (lastDate : Int),
      velMeasure maxT step target ≤ fuel →
      (velLoop p sorted maxT step fuel target lastDate).isSome := by
  intro fuel
  induction fuel with
  | zero =>
    intro target lastDate hm
    have ht : ¬ target ≤ maxT := by
      intro ht
      unfold velMeasure at hm
      rw [if_pos ht] at hm
      omega
    rw [velLoop, if_neg ht]
    rfl
  | succ f ih =>
    intro target lastDate hm
    rw [velLoop]
    by_cases ht : target ≤ maxT
    · rw [if_pos ht]
      cases hfind : sorted.find? (fun r => decide (target ≤ r.total)) with
      | none => simp
      | some r =>
        simp only [Option.isSome_map']
        apply ih
        have : velMeasure maxT step (target + step) + 1 ≤
            velMeasure maxT step target := velMeasure_succ hstep ht
        omega
    · rw [if_neg ht]
      rfl

lemma velLoop_step_zero (p : Bool) (sorted : List VRow) (maxT : ℚ) :
    ∀ (fuel : ℕ) (target : ℚ) (lastDate : Int),
      target ≤ maxT →
      ((sorted.find? fun r => decide (target ≤ r.total)).isSome) →
      velLoop p sorted maxT 0 fuel target lastDate = none := by
  intro fuel
  induction fuel with
  | zero =>
    intro target lastDate ht hfind
    obtain ⟨r, hr⟩ := Option.isSome_iff_exists.mp hfind
    rw [velLoop, if_pos ht, hr]
  | succ f ih =>
    intro target lastDate ht hfind
    obtain ⟨r, hr⟩ := Option.isSome_iff_exists.mp hfind
    rw [velLoop, if_pos ht, hr]
    dsimp only
    rw [ih (target + 0) r.date (by simpa using ht) (by simpa using hfind)]
    rfl

lemma velLoop_privacy_labels (sorted : List VRow) (maxT step : ℚ) :
    ∀ (fuel : ℕ) (target : ℚ) (lastDate : Int) (l : List VMilestone),
      velLoop true sorted maxT step fuel target lastDate = some l →
      ∀ m ∈ l, m.label = "****" := by
  intro fuel
  induction fuel with
  | zero =>
    intro target lastDate l hl
    by_cases ht : target ≤ maxT
    · rw [velLoop, if_pos ht] at hl
      cases hfind : sorted.find? (fun r => decide (target ≤ r.total)) with
      | none => rw [hfind] at hl; cases hl; simp
      | some r => rw [hfind] at hl; cases hl
    · rw [velLoop, if_neg ht] at hl
      cases hl; simp
  | succ f ih =>
    intro target lastDate l hl
    by_cases ht : target ≤ maxT
    · rw [velLoop, if_pos ht] at hl
      cases hfind : sorted.find? (fun r => decide (target ≤ r.total)) with
      | none => rw [hfind] at hl; cases hl; simp
      | some r =>
        rw [hfind] at hl
        simp only [Option.map_eq_some'] at hl
        obtain ⟨rest, hrest, hl⟩ := hl
        subst hl
        intro m hm
        rcases List.mem_cons.mp hm with rfl | hm'
        · rfl
        · exact ih _ _ rest hrest m hm'
    · rw [velLoop, if_neg ht] at hl
      cases hl; simp

lemma velLoop_spec (p : Bool) (sorted : List VRow) (maxT step : ℚ) :
    ∀ (fuel : ℕ) (target : ℚ) (lastDate : Int) (l : List VMilestone),
      velLoop p sorted maxT step fuel target lastDate = some l →
      ∀ i (h : i < l.length),
        (∃ r, sorted.find?
            (fun x => decide (target + (i : ℚ) * step ≤ x.total)) = some r ∧
          (l.get ⟨i, h⟩).reachDate = r.date) ∧
        ((l.get ⟨i, h⟩).label =
          if p then "****"
          else toString (ratTruncInt ((target + (i : ℚ) * step) / 10000)) ++ "w") ∧
        ((l.get ⟨i, h⟩).daysTaken =
          max 1 ((l.get ⟨i, h⟩).reachDate -
            (if i = 0 then lastDate
             else (l.get ⟨i - 1, by omega⟩).reachDate))) := by
  intro fuel
  induction fuel with
  | zero =>
    intro target lastDate l hl i h
    by_cases ht : target ≤ maxT
    · rw [velLoop, if_pos ht] at hl
      cases hfind : sorted.find? (fun x => decide (target ≤ x.total)) with
      | none => rw [hfind] at hl; cases hl; simp at h
      | some r => rw [hfind] at hl; cases hl
    · rw [velLoop, if_neg ht] at hl
      cases hl; simp at h
  | succ f ih =>
    intro target lastDate l hl i h
    by_cases ht : target ≤ maxT
    · rw [velLoop, if_pos ht] at hl
      cases hfind : sorted.find? (fun x => decide (target ≤ x.total)) with
      | none => rw [hfind] at hl; cases hl; simp at h
      | some r =>
        rw [hfind] at hl
        dsimp only at hl
        rw [Option.map_eq_some'] at hl
        obtain ⟨rest, hrest, hl⟩ := hl
        subst hl
        cases i with
        | zero =>
          refine ⟨⟨r, by simpa using hfind, by simp [List.get]⟩, ?_, ?_⟩
          · simp [List.get]
          · simp [List.get, int_if_lt_one_eq_max]
        | succ k =>
          have hk : k < rest.length := by simpa using h
          have spec := ih (target + step) r.date rest hrest k hk
          have harith : (target + step) + (k : ℚ) * step =
              target + ((k : ℕ) + 1 : ℕ) * step := by
            push_cast
            ring
          refine ⟨?_, ?_, ?_⟩
          · obtain ⟨r', hr', hrd⟩ := spec.1
            rw [harith] at hr'
            exact ⟨r', hr', by simpa [List.get] using hrd⟩
          · have hlab := spec.2.1
            rw [harith] at hlab
            simpa [List.get] using hlab
          · have hdays := spec.2.2
            cases k with
            | zero => simpa [List.get] using hdays
            | succ j => simpa [List.get] using hdays
    · rw [velLoop, if_neg ht] at hl
      cases hl; simp at h

lemma velLoop_length (p : Bool) (sorted : List VRow) (maxT step : ℚ)
    (hstep : 0 < step)
    (hfind : ∀ t : ℚ, t ≤ maxT →
      ((sorted.find? fun x => decide (t ≤ x.total)).isSome)) :
    ∀ (fuel : ℕ) (target : ℚ) (lastDate : Int) (l : List VMilestone),
      velLoop p sorted maxT step fuel target lastDate = some l →
      l.length =
        if target ≤ maxT then (⌊(maxT - target) / step⌋ + 1).toNat else 0 := by
  intro fuel
  induction fuel with
  | zero =>
    intro target lastDate l hl
    by_cases ht : target ≤ maxT
    · obtain ⟨r, hr⟩ := Option.isSome_iff_exists.mp (hfind target ht)
      rw [velLoop, if_pos ht, hr] at hl
      cases hl
    · rw [velLoop, if_neg ht] at hl
      cases hl
      simp [if_neg ht]
  | succ f ih =>
    intro target lastDate l hl
    by_cases ht : target ≤ maxT
    · obtain ⟨r, hr⟩ := Option.isSome_iff_exists.mp (hfind target ht)
      rw [velLoop, if_pos ht, hr] at hl
      dsimp only at hl
      rw [Option.map_eq_some'] at hl
      obtain ⟨rest, hrest, hl⟩ := hl
      subst hl
      have hres := ih (target + step) r.date rest hrest
      rw [if_pos ht]
      simp only [List.length_cons, hres]
      by_cases ht2 : target + step ≤ maxT
      · rw [if_pos ht2]
        have h1 : (maxT - (target + step)) / step = (maxT - target) / step - 1 := by
          field_simp
          ring
        have h2 : ⌊(maxT - (target + step)) / step⌋ =
            ⌊(maxT - target) / step⌋ - 1 := by
          rw [h1, Int.floor_sub_one]
        have h3 : (0 : ℤ) ≤ ⌊(maxT - (target + step)) / step⌋ :=
          Int.floor_nonneg.mpr (div_nonneg (by linarith) hstep.le)
        omega
      · rw [if_neg ht2]
        have h0 : (0 : ℚ) ≤ (maxT - target) / step :=
          div_nonneg (by linarith) hstep.le
        have hlt : (maxT - target) / step < 1 := by
          rw [div_lt_one hstep]
          linarith
        have hfl : ⌊(maxT - target) / step⌋ = 0 :=
          Int.floor_eq_zero_iff.mpr ⟨h0, hlt⟩
        omega
    · rw [velLoop, if_neg ht] at hl
      cases hl
      simp [if_neg ht]

lemma foldl_max_cases : ∀ (rs : List VRow) (a : ℚ),
    rs.foldl (fun b y => max b y.total) a = a ∨
    ∃ x ∈ rs, rs.foldl (fun b y => max b y.total) a = x.total := by
  intro rs
  induction rs with
  | nil => intro a; exact Or.inl rfl
  | cons y ys ih =>
    intro a
    rcases ih (max a y.total) with heq | ⟨x, hx, heq⟩
    · rcases max_choice a y.total with hm | hm
      · exact Or.inl (by rw [List.foldl_cons, heq, hm])
      · exact Or.inr ⟨y, List.mem_cons_self y ys, by rw [List.foldl_cons, heq, hm]⟩
    · exact Or.inr ⟨x, List.mem_cons_of_mem _ hx, by rw [List.foldl_cons]; exact heq⟩

lemma maxTotal_attained (df : List VRow) (hdf : df ≠ []) :
    ∃ r ∈ df, maxTotal df ≤ r.total := by
  cases df with
  | nil => exact absurd rfl hdf
  | cons r rs =>
    rcases foldl_max_cases rs r.total with heq | ⟨x, hx, heq⟩
    · exact ⟨r, List.mem_cons_self r rs, by simp only [maxTotal]; rw [heq]⟩
    · exact ⟨x, List.mem_cons_of_mem _ hx, by simp only [maxTotal]; rw [heq]⟩

lemma find?_total_isSome (df : List VRow) (hdf : df ≠ []) (t : ℚ)
    (ht : t ≤ maxTotal df) :
    ((sortByDate df).find? fun x => decide (t ≤ x.total)).isSome := by
  obtain ⟨r, hr, hle⟩ := maxTotal_attained df hdf
  rw [List.find?_isSome]
  refine ⟨r, ?_, by simp; linarith⟩
  exact (List.perm_insertionSort _ df).mem_iff.mpr hr

lemma firstTarget_minimal (df : List VRow) (step : ℚ) (hstep : 0 < step) :
    minTotal df < firstTarget df step ∧
    ∀ k : ℤ, minTotal df < k * step → firstTarget df step ≤ k * step := by
  constructor
  · have h1 : minTotal df / step < (⌊minTotal df / step⌋ : ℚ) + 1 :=
      Int.lt_floor_add_one _
    have h2 : minTotal df < ((⌊minTotal df / step⌋ : ℚ) + 1) * step :=
      (div_lt_iff₀ hstep).mp h1
    unfold firstTarget
    linarith
  · intro k hk
    have h1 : minTotal df / step < (k : ℚ) := by
      rw [div_lt_iff₀ hstep]
      exact hk
    have h2 : ⌊minTotal df / step⌋ < k := Int.floor_lt.mpr h1
    have h3 : ((⌊minTotal df / step⌋ : ℚ) + 1) ≤ (k : ℚ) := by
      exact_mod_cast h2
    unfold firstTarget
    exact mul_le_mul_of_nonneg_right h3 hstep.le

/-! ## C3 -/

/-- C3 counterexample.  With rows `(day 0, total 5)` and `(day 3, total 25)`
and step `10`, the thresholds `10` and `20` are both first crossed on day
`3`; the second milestone's elapsed days are `3 - 3 = 0`, yet the code
records `所用天数 = 1` because of the `if days_taken < 1: days_taken = 1`
clamp — the recorded value does not "equal exactly the days elapsed since
the previous threshold's crossing". -/
theorem C3_counterexample :
    calculate_milestone_velocity false [⟨0, 5⟩, ⟨3, 25⟩] 10 =
      [⟨"0w", 3, 3⟩, ⟨"0w", 1, 3⟩] ∧
    (1 : ℤ) ≠ 3 - 3 :=
  ⟨by with_unfolding_all rfl, by decide⟩

/-- C3 amended.  For a non-empty frame and `step > 0`:
the first threshold is the smallest multiple of `step` strictly above
`min(Total_Assets)`; the loop records one milestone per threshold up to
`max(Total_Assets)`; milestone `i` is reached at the first date-ordered
row with `Total_Assets ≥ threshold_i`; and its `所用天数` is
`max(1, days since the previous crossing)` (the first crossing counts
from the unsorted frame's first row date) — the elapsed days clamped up
to `1`, not the exact elapsed days. -/
theorem C3_velocity_amended (privacy : Bool) (df : List VRow) (step : ℚ)
    (hstep : 0 < step) (hdf : df ≠ []) :
    (minTotal df < firstTarget df step ∧
      ∀ k : ℤ, minTotal df < k * step → firstTarget df step ≤ k * step) ∧
    ((calculate_milestone_velocity privacy df step).length =
      if firstTarget df step ≤ maxTotal df
      then (⌊(maxTotal df - firstTarget df step) / step⌋ + 1).toNat else 0) ∧
    (∀ i (h : i < (calculate_milestone_velocity privacy df step).length),
      (∃ r, (sortByDate df).find?
          (fun x => decide (firstTarget df step + (i : ℚ) * step ≤ x.total)) =
            some r ∧
        ((calculate_milestone_velocity privacy df step).get ⟨i, h⟩).reachDate =
          r.date) ∧
      (((calculate_milestone_velocity privacy df step).get ⟨i, h⟩).daysTaken =
        max 1
          (((calculate_milestone_velocity privacy df step).get ⟨i, h⟩).reachDate -
            (if i = 0 then headDate df
             else ((calculate_milestone_velocity privacy df step).get
               ⟨i - 1, by omega⟩).reachDate)))) := by
  have hfind : ∀ t : ℚ, t ≤ maxTotal df →
      (((sortByDate df).find? fun x => decide (t ≤ x.total)).isSome) :=
    fun t ht => find?_total_isSome df hdf t ht
  have hmeas : velMeasure (maxTotal df) step (firstTarget df step) ≤
      velFuel df step := by
    unfold velMeasure velFuel
    by_cases ht : firstTarget df step ≤ maxTotal df
    · rw [if_pos ht]
    · rw [if_neg ht]
      omega
  obtain ⟨l, hl⟩ := Option.isSome_iff_exists.mp
    (velLoop_isSome privacy (sortByDate df) (maxTotal df) step hstep
      (velFuel df step) (firstTarget df step) (headDate df) hmeas)
  have hres : calculate_milestone_velocity privacy df step = l := by
    cases df with
    | nil => exact absurd rfl hdf
    | cons r rs =>
      simp only [calculate_milestone_velocity]
      rw [hl]
      rfl
  subst hres
  refine ⟨firstTarget_minimal df step hstep, ?_, ?_⟩
  · exact velLoop_length privacy (sortByDate df) (maxTotal df) step hstep hfind
      (velFuel df step) (firstTarget df step) (headDate df) _ hl
  · intro i h
    have hspec := velLoop_spec privacy (sortByDate df) (maxTotal df) step
      (velFuel df step) (firstTarget df step) (headDate df) _ hl i h
    exact ⟨hspec.1, hspec.2.2⟩

/-- Witness for C3 amended at a concrete frame: the length clause. -/
theorem C3_witness :
    (calculate_milestone_velocity false [⟨0, 5⟩, ⟨3, 25⟩] 10).length =
      if firstTarget [⟨0, 5⟩, ⟨3, 25⟩] 10 ≤ maxTotal [⟨0, 5⟩, ⟨3, 25⟩]
      then (⌊(maxTotal [⟨0, 5⟩, ⟨3, 25⟩] - firstTarget [⟨0, 5⟩, ⟨3, 25⟩] 10) /
        10⌋ + 1).toNat
      else 0 :=
  (C3_velocity_amended false [⟨0, 5⟩, ⟨3, 25⟩] 10 (by norm_num) (by simp)).2.1

/-! ## C9 -/

/-- C9.  For a non-empty frame, the velocity loop terminates whenever
`step > 0` (the explicitly-fuelled loop finishes within `velFuel` steps),
and the precondition is necessary: with `step = 0` and any threshold still
`≤ max(Total_Assets)` (such a threshold is always reachable on a non-empty
frame) the loop runs forever — no amount of fuel returns a result. -/
theorem C9_loop_termination (privacy : Bool) (df : List VRow) (step : ℚ)
    (hdf : df ≠ []) :
    (0 < step → ∀ lastDate : Int,
      (velLoop privacy (sortByDate df) (maxTotal df) step (velFuel df step)
        (firstTarget df step) lastDate).isSome) ∧
    (∀ (target : ℚ) (lastDate : Int) (fuel : ℕ),
      target ≤ maxTotal df →
      velLoop privacy (sortByDate df) (maxTotal df) 0 fuel target lastDate =
        none) := by
  constructor
  · intro hstep lastDate
    apply velLoop_isSome privacy (sortByDate df) (maxTotal df) step hstep
    unfold velMeasure velFuel
    by_cases ht : firstTarget df step ≤ maxTotal df
    · rw [if_pos ht]
    · rw [if_neg ht]
      omega
  · intro target lastDate fuel ht
    exact velLoop_step_zero privacy (sortByDate df) (maxTotal df) fuel target
      lastDate ht (find?_total_isSome df hdf target ht)

/-- Witness for C9: the loop finishes with `step = 10` and diverges with
`step = 0` on a concrete two-row frame. -/
theorem C9_witness :
    (velLoop false (sortByDate [⟨0, 5⟩, ⟨3, 25⟩]) (maxTotal [⟨0, 5⟩, ⟨3, 25⟩])
      10 (velFuel [⟨0, 5⟩, ⟨3, 25⟩] 10) (firstTarget [⟨0, 5⟩, ⟨3, 25⟩] 10)
      0).isSome ∧
    velLoop false (sortByDate [⟨0, 5⟩, ⟨3, 25⟩]) (maxTotal [⟨0, 5⟩, ⟨3, 25⟩])
      0 7 5 0 = none :=
  ⟨(C9_loop_termination false [⟨0, 5⟩, ⟨3, 25⟩] 10 (by simp)).1 (by norm_num) 0,
   (C9_loop_termination false [⟨0, 5⟩, ⟨3, 25⟩] 0 (by simp)).2 5 0 7
     (by rw [show maxTotal [⟨0, 5⟩, ⟨3, 25⟩] = 25 from by with_unfolding_all rfl]
         norm_num)⟩

/-! ## Lemmas about the monthly resample (C6) -/

lemma diffFillOpt_length (l : List (Option ℚ)) :
    (diffFillOpt l).length = l.length := by
  cases l with
  | nil => rfl
  | cons a t =>
    simp only [diffFillOpt, List.tail_cons, List.length_cons,
      List.length_zipWith]
    omega

lemma diffFillOpt_get_zero (l : List (Option ℚ))
    (h : 0 < (diffFillOpt l).length) :
    (diffFillOpt l).get ⟨0, h⟩ = 0 := by
  cases l with
  | nil => simp [diffFillOpt] at h
  | cons a t => rfl

lemma diffFillOpt_get_succ (l : List (Option ℚ)) (i : ℕ)
    (h : i + 1 < (diffFillOpt l).length) (h2 : i + 1 < l.length) :
    (diffFillOpt l).get ⟨i + 1, h⟩ =
      match l.get ⟨i + 1, h2⟩, l.get ⟨i, Nat.lt_of_succ_lt h2⟩ with
      | some b, some a => b - a
      | _, _ => 0 := by
  cases l with
  | nil => simp at h2
  | cons a t =>
    simp only [diffFillOpt, List.tail_cons, List.get_eq_getElem,
      List.getElem_cons_succ, List.getElem_zipWith]

lemma find?_unique_index {α : Type} (L : List α) (q : α → Bool) :
    ∀ (i : ℕ) (h : i < L.length),
      (∀ j (hj : j < L.length), (q (L.get ⟨j, hj⟩) = true ↔ j = i)) →
      L.find? q = some (L.get ⟨i, h⟩) := by
  induction L with
  | nil => intro i h; simp at h
  | cons x xs ih =>
    intro i h hq
    cases i with
    | zero =>
      have hx : q x = true := (hq 0 (by simp)).mpr rfl
      rw [List.find?_cons_of_pos _ hx]
      rfl
    | succ k =>
      have hx : ¬ q x = true := by
        intro hqx
        exact absurd ((hq 0 (by simp)).mp hqx) (by omega)
      have hk : k < xs.length := by simpa using h
      have hprop : ∀ j (hj : j < xs.length),
          (q (xs.get ⟨j, hj⟩) = true ↔ j = k) := by
        intro j hj
        have := hq (j + 1) (by simpa using hj)
        simpa using this
      rw [List.find?_cons_of_neg _ (by simpa using hx), ih k hk hprop]
      rfl

lemma monthIdx_eq_of_year_month_eq {a b : Int}
    (hy : yearOfIdx a = yearOfIdx b) (hm : monthOfIdx a = monthOfIdx b) :
    a = b := by
  have ha := Int.fdiv_add_fmod a 12
  have hb := Int.fdiv_add_fmod b 12
  unfold yearOfIdx at hy
  unfold monthOfIdx at hm
  omega

lemma monthly_diff_length (rows : List Row) :
    (monthly_diff rows).length = (monthRange rows).length ∧
    (monthlySeries rows).length = (monthRange rows).length := by
  have hs : (monthlySeries rows).length = (monthRange rows).length := by
    simp [monthlySeries]
  refine ⟨?_, hs⟩
  simp only [monthly_diff, List.length_zip, diffFillOpt_length,
    List.length_map, hs]
  omega

lemma monthly_diff_get (rows : List Row) (i : ℕ)
    (h : i < (monthly_diff rows).length) :
    (monthly_diff rows).get ⟨i, h⟩ =
      ((monthRange rows).get ⟨i, by
          have := (monthly_diff_length rows).1; omega⟩,
        (diffFillOpt ((monthlySeries rows).map (·.2))).get ⟨i, by
          have h1 := (monthly_diff_length rows).1
          have h2 := (monthly_diff_length rows).2
          rw [diffFillOpt_length, List.length_map]
          omega⟩) := by
  simp only [monthly_diff, List.get_eq_getElem, List.getElem_zip]

lemma monthRange_get (rows : List Row) (j : ℕ)
    (hj : j < (monthRange rows).length) :
    (monthRange rows).get ⟨j, hj⟩ = monthIdx (minDate rows) + j := by
  cases rows with
  | nil => simp [monthRange] at hj
  | cons r rs =>
    simp only [monthRange, List.get_eq_getElem, List.getElem_map,
      List.getElem_range]

/-! ## C6 -/

/-- C6 counterexample.  Two rows, one in January 1970 (`Total_Assets 100`)
and one in March 1970 (`Total_Assets 300`): `resample('M')` produces a
row for the empty February (`NaN`), so both February's and March's diffs
are `NaN` and `fillna(0)` makes the whole monthly series `0` — March's
monthly value is *not* `300 - 100`, the difference against the previous
month that has observations. -/
theorem C6_counterexample :
    monthly_diff (load_and_process_data 0
        [⟨0, some 100, none, none⟩, ⟨70, some 200, some 100, none⟩]) =
      [(23640, 0), (23641, 0), (23642, 0)] ∧
    monthLast (load_and_process_data 0
        [⟨0, some 100, none, none⟩, ⟨70, some 200, some 100, none⟩]) 23642 =
      some 300 ∧
    monthLast (load_and_process_data 0
        [⟨0, some 100, none, none⟩, ⟨70, some 200, some 100, none⟩]) 23640 =
      some 100 ∧
    (0 : ℚ) ≠ 300 - 100 :=
  ⟨by with_unfolding_all rfl, by with_unfolding_all rfl,
   by with_unfolding_all rfl, by norm_num⟩

/-- C6 amended.  The monthly series is the month-end resample diffed with
`fillna(0)`: the first month's value is `0`; a month whose own bucket and
whose predecessor bucket both have observations gets `last - previous
last`; a month where either bucket is empty (`NaN`) gets `0`; and
`season_pivot` at a month's `(Year, Month)` key returns exactly that
month's net change. -/
theorem C6_monthly_amended (rows : List Row) :
    ((monthly_diff rows).length = (monthlySeries rows).length) ∧
    (∀ h : 0 < (monthly_diff rows).length,
      ((monthly_diff rows).get ⟨0, h⟩).2 = 0) ∧
    (∀ i (hd : i + 1 < (monthly_diff rows).length)
        (hs : i + 1 < (monthlySeries rows).length) (a b : ℚ),
      ((monthlySeries rows).get ⟨i, Nat.lt_of_succ_lt hs⟩).2 = some a →
      ((monthlySeries rows).get ⟨i + 1, hs⟩).2 = some b →
      ((monthly_diff rows).get ⟨i + 1, hd⟩).2 = b - a) ∧
    (∀ i (hd : i + 1 < (monthly_diff rows).length)
        (hs : i + 1 < (monthlySeries rows).length),
      (((monthlySeries rows).get ⟨i, Nat.lt_of_succ_lt hs⟩).2 = none ∨
       ((monthlySeries rows).get ⟨i + 1, hs⟩).2 = none) →
      ((monthly_diff rows).get ⟨i + 1, hd⟩).2 = 0) ∧
    (∀ i (h : i < (monthly_diff rows).length),
      season_pivot rows (yearOfIdx ((monthly_diff rows).get ⟨i, h⟩).1)
        (monthOfIdx ((monthly_diff rows).get ⟨i, h⟩).1) =
        some (((monthly_diff rows).get ⟨i, h⟩).2)) := by
  have hlen := monthly_diff_length rows
  have hvlen : ((monthlySeries rows).map (·.2)).length =
      (monthRange rows).length := by
    rw [List.length_map]
    exact hlen.2
  refine ⟨hlen.1.trans hlen.2.symm, ?_, ?_, ?_, ?_⟩
  · intro h
    rw [monthly_diff_get rows 0 h]
    exact diffFillOpt_get_zero _ _
  · intro i hd hs a b ha hb
    rw [monthly_diff_get rows (i + 1) hd]
    have hv : i + 1 < ((monthlySeries rows).map (·.2)).length := by omega
    have hga : ((monthlySeries rows).map (·.2)).get ⟨i, Nat.lt_of_succ_lt hv⟩ =
        some a := by
      simp only [List.get_eq_getElem, List.getElem_map]
      simpa [List.get_eq_getElem] using ha
    have hgb : ((monthlySeries rows).map (·.2)).get ⟨i + 1, hv⟩ = some b := by
      simp only [List.get_eq_getElem, List.getElem_map]
      simpa [List.get_eq_getElem] using hb
    show (diffFillOpt ((monthlySeries rows).map (·.2))).get
      ⟨i + 1, by rw [diffFillOpt_length]; omega⟩ = b - a
    rw [diffFillOpt_get_succ _ i _ hv, hgb, hga]
  · intro i hd hs hnone
    rw [monthly_diff_get rows (i + 1) hd]
    have hv : i + 1 < ((monthlySeries rows).map (·.2)).length := by omega
    show (diffFillOpt ((monthlySeries rows).map (·.2))).get
      ⟨i + 1, by rw [diffFillOpt_length]; omega⟩ = 0
    rw [diffFillOpt_get_succ _ i _ hv]
    rcases hnone with hna | hnb
    · have hga : ((monthlySeries rows).map (·.2)).get
          ⟨i, Nat.lt_of_succ_lt hv⟩ = none := by
        simp only [List.get_eq_getElem, List.getElem_map]
        simpa [List.get_eq_getElem] using hna
      rw [hga]
      rcases hx : ((monthlySeries rows).map (·.2)).get ⟨i + 1, hv⟩ with _ | v <;>
        rfl
    · have hgb : ((monthlySeries rows).map (·.2)).get ⟨i + 1, hv⟩ = none := by
        simp only [List.get_eq_getElem, List.getElem_map]
        simpa [List.get_eq_getElem] using hnb
      rw [hgb]
  · intro i h
    have hq : ∀ j (hj : j < (monthly_diff rows).length),
        (((fun p : Int × ℚ =>
            decide (yearOfIdx p.1 =
              yearOfIdx ((monthly_diff rows).get ⟨i, h⟩).1) &&
            decide (monthOfIdx p.1 =
              monthOfIdx ((monthly_diff rows).get ⟨i, h⟩).1))
          ((monthly_diff rows).get ⟨j, hj⟩)) = true ↔ j = i) := by
      intro j hj
      have hmdj := monthly_diff_get rows j hj
      have hmdi := monthly_diff_get rows i h
      have hj' : j < (monthRange rows).length := by omega
      have hi' : i < (monthRange rows).length := by omega
      have hrj : ((monthly_diff rows).get ⟨j, hj⟩).1 =
          monthIdx (minDate rows) + j := by
        rw [hmdj]
        exact monthRange_get rows j hj'
      have hri : ((monthly_diff rows).get ⟨i, h⟩).1 =
          monthIdx (minDate rows) + i := by
        rw [hmdi]
        exact monthRange_get rows i hi'
      constructor
      · intro hqt
        simp only [Bool.and_eq_true, decide_eq_true_eq] at hqt
        have := monthIdx_eq_of_year_month_eq hqt.1 hqt.2
        rw [hrj, hri] at this
        omega
      · rintro rfl
        simp
    have hfind := find?_unique_index (monthly_diff rows)
      (fun p : Int × ℚ =>
        decide (yearOfIdx p.1 = yearOfIdx ((monthly_diff rows).get ⟨i, h⟩).1) &&
        decide (monthOfIdx p.1 = monthOfIdx ((monthly_diff rows).get ⟨i, h⟩).1))
      i h hq
    simp only [season_pivot]
    rw [hfind]
    rfl

/-- Witness for C6 amended: two consecutive observed months give the
last-minus-last difference. -/
theorem C6_witness :
    ((monthly_diff (load_and_process_data 0
        [⟨0, some 100, none, none⟩, ⟨40, some 250, none, none⟩])).get
      ⟨1, by with_unfolding_all decide⟩).2 = 250 - 100 :=
  (C6_monthly_amended (load_and_process_data 0
      [⟨0, some 100, none, none⟩, ⟨40, some 250, none, none⟩])).2.2.1 0
    (by with_unfolding_all decide) (by with_unfolding_all decide) 100 250
    (by with_unfolding_all rfl) (by with_unfolding_all rfl)

/-! ## C7 -/

/-- C7 counterexample.  `mask_fig` under privacy mode sets the text
template to the *empty string* (hiding on-figure numbers entirely), not to
the `'****'` placeholder the claim names for it. -/
theorem C7_counterexample :
    (mask_fig true ⟨⟨true, "日期"⟩, ⟨true, "金额"⟩, "", ""⟩ "y").texttemplate =
      "" ∧
    ("" : String) ≠ "****" :=
  ⟨rfl, by decide⟩

/-- C7 amended.  Under privacy mode every displayed monetary value is
independent of the underlying number: `fmt_money` returns the `'****'`
mask for every input (any two runs agree), `mask_fig` hides the money
axis's tick labels, masks its title and the hover template with `'****'`,
and *clears the text template to the empty string*; the velocity table
labels every milestone `'****'`; with privacy off, `fmt_money` returns
the value itself, formatted `¥{v:,.0f}` when `is_kpi`. -/
theorem C7_privacy_amended :
    (∀ (v₁ v₂ : ℚ) (k₁ k₂ : Bool),
      fmt_money true v₁ k₁ = fmt_money true v₂ k₂) ∧
    (∀ (v : ℚ) (k : Bool), fmt_money true v k = MoneyDisplay.masked) ∧
    (∀ fig : Fig,
      (mask_fig true fig "y").yaxis = ⟨false, "****"⟩ ∧
      (mask_fig true fig "x").xaxis = ⟨false, "****"⟩ ∧
      (mask_fig true fig "y").hovertemplate = "%\x7bx\x7d<br>****" ∧
      (mask_fig true fig "y").texttemplate = "") ∧
    (∀ (fig : Fig) (ax : String), mask_fig false fig ax = fig) ∧
    (∀ (df : List VRow) (step : ℚ),
      ((calculate_milestone_velocity true df step).map (·.label)).all
        (· == "****") = true) ∧
    (∀ v : ℚ, fmt_money false v true = MoneyDisplay.kpiStr (fmtKpiStr v) ∧
      fmt_money false v false = MoneyDisplay.plain v) := by
  refine ⟨fun v₁ v₂ k₁ k₂ => rfl, fun v k => rfl,
    fun fig => ⟨rfl, rfl, rfl, rfl⟩, fun fig ax => rfl, ?_, fun v => ⟨rfl, rfl⟩⟩
  intro df step
  cases df with
  | nil => rfl
  | cons r rs =>
    simp only [calculate_milestone_velocity]
    cases hl : velLoop true (sortByDate (r :: rs)) (maxTotal (r :: rs)) step
        (velFuel (r :: rs) step) (firstTarget (r :: rs) step)
        (headDate (r :: rs)) with
    | none => rfl
    | some l =>
      have hlab := velLoop_privacy_labels (sortByDate (r :: rs))
        (maxTotal (r :: rs)) step (velFuel (r :: rs) step)
        (firstTarget (r :: rs) step) (headDate (r :: rs)) l hl
      simp only [Option.getD_some, List.all_eq_true]
      intro x hx
      obtain ⟨m, hm, rfl⟩ := List.mem_map.mp hx
      simp [hlab m hm]

/-! ## C8 -/

lemma processAux_eq_zip (start : Int) :
    ∀ (rs : List RawRow) (p : ℚ),
      processAux start (some p) rs =
        List.zipWith (mkRow start) rs
          (List.zipWith (fun a b => a - b) (totalsOf rs) (p :: totalsOf rs)) := by
  intro rs
  induction rs with
  | nil => intro p; rfl
  | cons r rs ih =>
    intro p
    simp only [processAux, totalsOf, List.map_cons, List.zipWith_cons_cons]
    congr 1
    exact ih _

lemma copyB_load_eq (start : Int) (raw : List RawRow) :
    copyB_load start raw = load_and_process_data start raw := by
  cases raw with
  | nil => rfl
  | cons r rs =>
    simp only [copyB_load, load_and_process_data, processAux, totalsOf,
      seriesDiffFill, List.map_cons, List.tail_cons, List.zipWith_cons_cons]
    congr 1
    exact (processAux_eq_zip start rs _).symm

/-- C8.  The three dashboard copies' data-processing pipelines agree on
every input: the two copies missing from `src/` are modelled from the
spec's statement that they are near-duplicates differing only in
layout/UI, and their loading / tagging / staging / monthly-aggregation /
velocity stages compute the same results as `src/finance_app.py`'s. -/
theorem C8_three_copies_equivalent (start : Int) (ms : List Milestone)
    (privacy : Bool) (step : ℚ) (raw : List RawRow) :
    copyB_fullPipeline start ms privacy step raw =
      fullPipeline start ms privacy step raw ∧
    copyC_fullPipeline start ms privacy step raw =
      fullPipeline start ms privacy step raw := by
  constructor
  · simp only [copyB_fullPipeline, fullPipeline, copyB_load_eq]
  · rfl

end FinTrack
